import Mathlib

/-!
Shallow embedding of the Tic-Tac-Toe environment
(`gym/envs/board_game/tictactoe.py`).

The board is the 3×3×3 numpy int8 array `state`: layer 0 holds Circle's
marks, layer 1 Cross's marks, layer 2 the empty mask.  We embed it as a
total function `Nat → Nat → Nat → Int`; cells outside the 3×3×3 range
(which do not exist in the numpy array) are represented by the value 0.
Python exceptions become `Except GymError`.
-/

/-- The fault conditions the Python code can signal. -/
inductive GymError where
  /-- `error.Error` from an invalid configuration value. -/
  | configError : GymError
  /-- A failing `assert` statement. -/
  | assertionError : GymError
  /-- The bare `raise` statement executed in `_step` under `illegal_move_mode == 'raise'`.
      With no active exception this surfaces in Python as
      `RuntimeError: No active exception to re-raise`. -/
  | bareRaise : GymError
  /-- Attribute lookup on `self.opponent_policy` (or `self.np_random`) before
      `_seed` has bound it: Python `AttributeError`. -/
  | attributeError : GymError
  /-- `make_move(state, None, ...)`: `None // 3` is a Python `TypeError`. -/
  | typeError : GymError
  /-- `error.Error("Both players got a winning line, ...")` in `game_finished`. -/
  | bothWinError : GymError
deriving DecidableEq, Repr

/-- The board: `board layer row col`, mirroring `state[layer, row, col]`. -/
abbrev Board := Nat → Nat → Nat → Int

/-- `TicTacToeEnv.CIRCLE = 0`. -/
def CIRCLE : Nat := 0

/-- `TicTacToeEnv.CROSS = 1`. -/
def CROSS : Nat := 1

/-- The board produced by `np.zeros((3,3,3))` followed by `state[2,:,:] = 1`. -/
def init_board : Board := fun l r c => if l = 2 ∧ r < 3 ∧ c < 3 then 1 else 0

/-- `TicTacToeEnv.action_to_coordinate`: `action // 3, action % 3`. -/
def action_to_coordinate (action : Nat) : Nat × Nat := (action / 3, action % 3)

/-- `TicTacToeEnv.coordinate_to_action`: `coords[0] * 3 + coords[1]`
    (the `board` argument is unused in the source as well). -/
def coordinate_to_action (_board : Board) (coords : Nat × Nat) : Nat :=
  coords.1 * 3 + coords.2

/-- `TicTacToeEnv.valid_move`: true iff the empty layer holds 1 at the target cell. -/
def valid_move (board : Board) (action : Nat) : Bool :=
  if board 2 (action / 3) (action % 3) = 1 then true else false

/-- `TicTacToeEnv.make_move`: `board[2, coords] = 0; board[player, coords] = 1`.
    The resulting array value at the target cell is 1 on layer `player`
    (written last) and 0 on layer 2. -/
def make_move (board : Board) (action : Nat) (player : Nat) : Board :=
  fun l r c =>
    if r = action / 3 ∧ c = action % 3 then
      if l = player then 1 else if l = 2 then 0 else board l r c
    else board l r c

/-- `TicTacToeEnv.get_possible_actions`: the row-major scan of `np.where(board[2] == 1)`
    mapped through `coordinate_to_action`. -/
def get_possible_actions (board : Board) : List Nat :=
  (List.range 3).flatMap fun x =>
    (List.range 3).filterMap fun y =>
      if board 2 x y = 1 then some (coordinate_to_action board (x, y)) else none

/-- The `win_lines` list of `TicTacToeEnv.game_finished`:
    3 rows, 3 columns, 2 diagonals. -/
def win_lines : List (List (Nat × Nat)) :=
  [[(0, 0), (0, 1), (0, 2)], [(1, 0), (1, 1), (1, 2)], [(2, 0), (2, 1), (2, 2)],
   [(0, 0), (1, 0), (2, 0)], [(0, 1), (1, 1), (2, 1)], [(0, 2), (1, 2), (2, 2)],
   [(0, 0), (1, 1), (2, 2)], [(0, 2), (1, 1), (2, 0)]]

/-- The per-line product `curxwin`/`curowin` accumulated in `game_finished`. -/
def line_prod (board : Board) (layer : Nat) (line : List (Nat × Nat)) : Int :=
  (line.map fun p => board layer p.1 p.2).prod

/-- The `xwin` accumulator of `game_finished` (layer 1 = Cross). -/
def xwin (board : Board) : Int :=
  (win_lines.map fun line => line_prod board 1 line).sum

/-- The `owin` accumulator of `game_finished` (layer 0 = Circle). -/
def owin (board : Board) : Int :=
  (win_lines.map fun line => line_prod board 0 line).sum

/-- `TicTacToeEnv.game_finished`: 1 if Circle wins, -1 if Cross wins, 0 otherwise;
    raises when both accumulators are positive. -/
def game_finished (board : Board) : Except GymError Int :=
  if xwin board = 0 ∧ owin board = 0 then .ok 0
  else if xwin board > 0 ∧ owin board = 0 then .ok (-1)
  else if xwin board = 0 ∧ owin board > 0 then .ok 1
  else .error .bothWinError

/-- The state of `np.random.RandomState`.
    Modelled from the spec: `gym.utils.seeding.np_random` and numpy's generator are
    outside `src/`; the spec requires only an "engine-owned seeded random source so
    episodes are reproducible given a fixed seed", i.e. a deterministic function of
    the seed.  We model the generator as its seed plus a draw counter. -/
structure NPRandom where
  seed : Nat
  counter : Nat
deriving DecidableEq, Repr

/-- Modelled from the spec: `np_random.randint(n)` draws a value in `[0, n)`
    deterministically from the generator state and advances the generator. -/
def randint (g : NPRandom) (n : Nat) : Nat × NPRandom :=
  (((g.seed + 1) * 2654435761 + g.counter * 40503) % n, ⟨g.seed, g.counter + 1⟩)

/-- The `opponent` constructor argument: either a string keyword or a policy callable. -/
inductive OpponentSpec where
  | str : String → OpponentSpec
  | policy : (Board → Option Nat) → OpponentSpec

/-- The value `_seed` binds to `self.opponent_policy`: either the closure produced by
    `make_random_policy(self.np_random)` or the caller-supplied callable. -/
inductive BoundPolicy where
  | randomP : BoundPolicy
  | externalP : (Board → Option Nat) → BoundPolicy

/-- The body of the closure returned by `make_random_policy`: pick a uniform index
    into `get_possible_actions`, or `None` when no move is left.  The generator
    (`np_random` in the closure) is threaded explicitly. -/
def random_policy (g : NPRandom) (state : Board) : Option Nat × NPRandom :=
  let possible_moves := get_possible_actions state
  if possible_moves.length = 0 then (none, g)
  else
    let p := randint g possible_moves.length
    (possible_moves[p.1]?, p.2)

/-- Invoke the bound opponent policy, threading the session's generator. -/
def call_policy : BoundPolicy → NPRandom → Board → Option Nat × NPRandom
  | .randomP, g, b => random_policy g b
  | .externalP f, _g, b => (f b, _g)

/-- The mutable attributes of a `TicTacToeEnv` instance.
    `opponent_policy = none` models the attribute not yet having been
    assigned (it is first assigned inside `_seed`). -/
structure Session where
  player_color : Nat
  opponent : OpponentSpec
  observation_type : String
  illegal_move_mode : String
  np_random : NPRandom
  opponent_policy : Option BoundPolicy
  state : Board
  to_play : Nat
  done : Bool

/-- `TicTacToeEnv._reset`: clear the board, set turn to Circle, and when the agent
    is not Circle let the opponent open (consulting `self.opponent_policy`, which is
    an `AttributeError` if `_seed` has not yet bound it). -/
def reset_env (s : Session) : Except GymError Session :=
  let s1 := { s with state := init_board, to_play := CIRCLE, done := false }
  if s1.player_color ≠ s1.to_play then
    match s1.opponent_policy with
    | none => .error .attributeError
    | some p =>
      match call_policy p s1.np_random s1.state with
      | (none, _) => .error .typeError
      | (some a, g2) =>
        .ok { s1 with state := make_move s1.state a CIRCLE, to_play := CROSS,
                      np_random := g2 }
  else .ok s1

/-- Modelled from the spec: `seeding.np_random(seed)` builds a fresh generator from
    the given seed; with no seed it draws one from system entropy, which we model
    as the fixed value 0 (no claim depends on the unseeded value). -/
def np_random_init (seed : Option Nat) : NPRandom := ⟨seed.getD 0, 0⟩

/-- `TicTacToeEnv._seed`: replace the generator, then (re)bind `opponent_policy`:
    the string `"random"` selects `make_random_policy`, any other string is an
    `error.Error`, and a callable is bound as-is. -/
def seed_env (s : Session) (seed : Option Nat) : Except GymError Session :=
  let s1 := { s with np_random := np_random_init seed }
  match s1.opponent with
  | .str kw =>
    if kw = "random" then .ok { s1 with opponent_policy := some .randomP }
    else .error .configError
  | .policy f => .ok { s1 with opponent_policy := some (.externalP f) }

/-- `TicTacToeEnv.__init__`: validate `player_color` via the colormap, assert the
    observation type and illegal-move mode, then call `reset()` and only afterwards
    `_seed()`.  Before `_seed()` runs, `opponent_policy` is an unbound attribute. -/
def init_env (player_color : String) (opponent : OpponentSpec)
    (observation_type : String) (illegal_move_mode : String) :
    Except GymError Session :=
  match (if player_color = "circle" then some CIRCLE
         else if player_color = "cross" then some CROSS else none) with
  | none => .error .configError
  | some pc =>
    if observation_type ≠ "numpy3c" then .error .assertionError
    else if ¬ (illegal_move_mode = "lose" ∨ illegal_move_mode = "raise") then
      .error .assertionError
    else
      let s0 : Session :=
        { player_color := pc, opponent := opponent,
          observation_type := observation_type,
          illegal_move_mode := illegal_move_mode,
          np_random := ⟨0, 0⟩, opponent_policy := none,
          state := init_board, to_play := CIRCLE, done := false }
      match reset_env s0 with
      | .error e => .error e
      | .ok s1 => seed_env s1 none

/-- The "Opponent play" block of `TicTacToeEnv._step`: consult the policy on the
    board left by the agent's move, and apply the returned move when it is not
    `None` and `game_finished` (which may raise) reports the game still ongoing. -/
def opponent_phase (p : BoundPolicy) (g : NPRandom) (player_color : Nat)
    (board1 : Board) : Except GymError (Board × NPRandom) :=
  match call_policy p g board1 with
  | (none, g2) => .ok (board1, g2)
  | (some a2, g2) =>
    match game_finished board1 with
    | .error e => .error e
    | .ok g1 =>
      .ok ((if g1 = 0 then make_move board1 a2 (1 - player_color) else board1), g2)

/-- `TicTacToeEnv._step`.  Returns the updated session together with the
    `(observation, reward, done)` triple the Python method returns.  The leading
    `assert self.to_play == self.player_color` is an `assertionError` when false. -/
def step_env (s : Session) (action : Nat) :
    Except GymError (Session × Board × Int × Bool) :=
  if s.to_play ≠ s.player_color then .error .assertionError
  else if s.done then .ok (s, s.state, 0, true)
  else if valid_move s.state action = false then
    if s.illegal_move_mode = "raise" then .error .bareRaise
    else if s.illegal_move_mode = "lose" then
      .ok ({ s with done := true }, s.state, -1, true)
    else .error .configError
  else
    let board1 := make_move s.state action s.player_color
    match s.opponent_policy with
    | none => .error .attributeError
    | some p =>
      match opponent_phase p s.np_random s.player_color board1 with
      | .error e => .error e
      | .ok (board2, g2) =>
        match game_finished board2 with
        | .error e => .error e
        | .ok raw =>
          let reward := if s.player_color = CROSS then -raw else raw
          let d : Bool := if reward = 0 then false else true
          .ok ({ s with state := board2, np_random := g2, done := d },
               board2, reward, d)

/-- Run a sequence of `step` calls, keeping only the final session. -/
def run_steps (s : Session) : List Nat → Except GymError Session
  | [] => .ok s
  | a :: rest =>
    match step_env s a with
    | .error e => .error e
    | .ok r => run_steps r.1 rest

/-- Run a sequence of `step` calls, recording each `(observation, reward, done)`. -/
def run_trace (s : Session) : List Nat → Except GymError (List (Board × Int × Bool))
  | [] => .ok []
  | a :: rest =>
    match step_env s a with
    | .error e => .error e
    | .ok r =>
      match run_trace r.1 rest with
      | .error e => .error e
      | .ok t => .ok ((r.2.1, r.2.2.1, r.2.2.2) :: t)

/-- Construct a session with the built-in random opponent and then seed it,
    as a caller of the public API would (`__init__` then `seed(v)`). -/
def make_session (v : Nat) : Except GymError Session :=
  match init_env "circle" (.str "random") "numpy3c" "lose" with
  | .error e => .error e
  | .ok s => seed_env s (some v)

/-- The whole observable behaviour of one episode: construct/seed outcome
    composed with the per-step trace. -/
def session_trace (s : Except GymError Session) (acts : List Nat) :
    Except GymError (List (Board × Int × Bool)) :=
  match s with
  | .error e => .error e
  | .ok s0 => run_trace s0 acts

/-! ### Derived predicates used to state the claims -/

/-- One-hot invariant of the spec: at each of the 9 cells exactly one of the
    three layers holds 1 and the other two hold 0. -/
def onehot (b : Board) : Prop :=
  ∀ r c : Fin 3,
    (b 0 r c = 1 ∧ b 1 r c = 0 ∧ b 2 r c = 0) ∨
    (b 0 r c = 0 ∧ b 1 r c = 1 ∧ b 2 r c = 0) ∨
    (b 0 r c = 0 ∧ b 1 r c = 0 ∧ b 2 r c = 1)

/-- Coordinates outside the 3×3×3 numpy array do not exist; in the embedding
    they carry the value 0. -/
def zero_outside (b : Board) : Prop :=
  ∀ l r c : Nat, 3 ≤ l ∨ 3 ≤ r ∨ 3 ≤ c → b l r c = 0

/-- The board invariant maintained by the engine. -/
def BoardInv (b : Board) : Prop := onehot b ∧ zero_outside b

/-- The 9 cells of the grid in row-major order. -/
def all_cells : List (Nat × Nat) :=
  [(0, 0), (0, 1), (0, 2), (1, 0), (1, 1), (1, 2), (2, 0), (2, 1), (2, 2)]

/-- The number of cells carrying a Circle or a Cross mark. -/
def markedCount (b : Board) : Nat :=
  all_cells.countP fun rc => decide (b 0 rc.1 rc.2 = 1 ∨ b 1 rc.1 rc.2 = 1)

/-- The §4.3 opponent-policy contract: a returned move is always legal.
    (The built-in random policy satisfies it by construction.) -/
def PolicyLegal : BoundPolicy → Prop
  | .randomP => True
  | .externalP f => ∀ b a, f b = some a → valid_move b a = true

/-- Sessions whose bound opponent policy (if any) honours the §4.3 contract. -/
def PolicyLegalOpt (o : Option BoundPolicy) : Prop :=
  ∀ p, o = some p → PolicyLegal p

/-- The invariant carried along reachable sessions. -/
def SessionOK (s : Session) : Prop :=
  BoardInv s.state ∧ (s.to_play = 0 ∨ s.to_play = 1) ∧
    PolicyLegalOpt s.opponent_policy

/-- Sessions reachable through `reset` followed by any sequence of successful
    `step` calls, for a contract-honouring opponent policy. -/
inductive Reachable : Session → Prop where
  | base (s s2 : Session) (hpol : PolicyLegalOpt s.opponent_policy)
      (h : reset_env s = .ok s2) : Reachable s2
  | next (s : Session) (a : Nat) (out : Session × Board × Int × Bool)
      (hs : Reachable s) (h : step_env s a = .ok out) : Reachable out.1

/-- `line_won b layer line`: all three cells of the line carry the layer's marker. -/
def line_won (b : Board) (layer : Nat) (line : List (Nat × Nat)) : Prop :=
  ∀ p ∈ line, b layer p.1 p.2 = 1

/-- Some of the 8 scanned winning lines is fully marked on `layer`. -/
def has_win (b : Board) (layer : Nat) : Prop :=
  ∃ line ∈ win_lines, line_won b layer line

/-- The two marker layers hold only 0/1 values at in-range cells (true of every
    board the environment builds; `game_finished` reads nothing else). -/
def values01 (b : Board) : Prop :=
  ∀ (l : Fin 2) (r c : Fin 3), b l r c = 0 ∨ b l r c = 1

instance (b : Board) : Decidable (values01 b) := by
  unfold values01; infer_instance

instance (b : Board) (layer : Nat) (line : List (Nat × Nat)) :
    Decidable (line_won b layer line) := by
  unfold line_won; infer_instance

instance (b : Board) (layer : Nat) : Decidable (has_win b layer) := by
  unfold has_win; infer_instance

instance (b : Board) : Decidable (onehot b) := by
  unfold onehot; infer_instance

/-! ### Concrete data used by witnesses and counterexamples -/

/-- A deterministic caller-supplied opponent policy: play the first still-legal
    cell among 2, 3, 4, 7. -/
def oppSeq : Board → Option Nat := fun b =>
  ([2, 3, 4, 7].filter fun a => valid_move b a).head?

/-- A placeholder session used only as the default of `Option.getD`. -/
def dummy_session : Session :=
  { player_color := CIRCLE, opponent := .str "random",
    observation_type := "numpy3c", illegal_move_mode := "lose",
    np_random := ⟨0, 0⟩, opponent_policy := none,
    state := init_board, to_play := CIRCLE, done := false }

/-- The session produced by playing the draw game `O 0, X 2, O 1, X 3, O 5, X 4,
    O 6, X 7` (agent Circle against `oppSeq`): four agent steps in. -/
def draw_pre_session : Session :=
  ((init_env "circle" (.policy oppSeq) "numpy3c" "lose").bind
    fun s => run_steps s [0, 1, 5, 6]).toOption.getD dummy_session

/-- A freshly reset Circle-agent session with the random opponent bound. -/
def demo_start_session : Session :=
  { player_color := CIRCLE, opponent := .str "random",
    observation_type := "numpy3c", illegal_move_mode := "lose",
    np_random := ⟨0, 0⟩, opponent_policy := some .randomP,
    state := init_board, to_play := CIRCLE, done := false }

/-- `demo_start_session` already marked terminal. -/
def demo_done_session : Session :=
  { demo_start_session with done := true }

/-- A session whose board has Circle on cell 0, under `"lose"` mode. -/
def demo_lose_session : Session :=
  { demo_start_session with state := make_move init_board 0 CIRCLE }

/-- A session whose board has Circle on cell 0, under `"raise"` mode. -/
def demo_raise_session : Session :=
  { demo_start_session with state := make_move init_board 0 CIRCLE,
                            illegal_move_mode := "raise" }

/-- A Cross-agent session (as `_reset` would see it once a policy is bound)
    whose opponent always opens at cell 4. -/
def demo_cross_session : Session :=
  { player_color := CROSS, opponent := .policy fun _ => some 4,
    observation_type := "numpy3c", illegal_move_mode := "lose",
    np_random := ⟨0, 0⟩, opponent_policy := some (.externalP fun _ => some 4),
    state := init_board, to_play := CIRCLE, done := false }

/-- A board on which Circle completed the top row and Cross has no line. -/
def circle_row_board : Board := fun l r c =>
  if l = 0 ∧ r = 0 ∧ c < 3 then 1 else 0

/-- A board on which Cross completed the middle row and Circle has no line. -/
def cross_row_board : Board := fun l r c =>
  if l = 1 ∧ r = 1 ∧ c < 3 then 1 else 0

/-- A corrupted board on which both players completed a row. -/
def both_win_board : Board := fun l r c =>
  if l = 0 ∧ r = 0 ∧ c < 3 then 1 else if l = 1 ∧ r = 1 ∧ c < 3 then 1 else 0

/-! ### Basic lemmas -/

theorem valid_move_iff (b : Board) (a : Nat) :
    valid_move b a = true ↔ b 2 (a / 3) (a % 3) = 1 := by
  unfold valid_move
  split <;> simp_all

/-! ### Claim theorems -/

/-- **C4.** Once the session is terminal (`done = true`), every subsequent `step`
    call, with any action, returns the same unchanged session, the same board,
    reward 0 and `done = true`: repeated calls after termination are a no-op. -/
theorem step_after_done_noop (s : Session) (a : Nat)
    (hturn : s.to_play = s.player_color) (hdone : s.done = true) :
    step_env s a = .ok (s, s.state, 0, true) := by
  simp [step_env, hturn, hdone]

/-- Witness for `step_after_done_noop` at a concrete terminal session. -/
theorem step_after_done_noop_witness :
    step_env demo_done_session 5 =
      .ok (demo_done_session, demo_done_session.state, 0, true) :=
  step_after_done_noop demo_done_session 5 rfl rfl

/-- **C3.** Under `"lose"` mode, a `step` on an occupied cell of a non-terminal
    session marks the session terminal and returns reward −1, `done = true`,
    and the unchanged board (the returned session differs from the input only
    in its `done` flag). -/
theorem step_lose_illegal (s : Session) (a : Nat)
    (hturn : s.to_play = s.player_color) (hdone : s.done = false)
    (hval : valid_move s.state a = false)
    (hmode : s.illegal_move_mode = "lose") :
    step_env s a = .ok ({ s with done := true }, s.state, -1, true) := by
  simp [step_env, hturn, hdone, hval, hmode]

/-- Witness for `step_lose_illegal`: stepping onto the occupied cell 0. -/
theorem step_lose_illegal_witness :
    step_env demo_lose_session 0 =
      .ok ({ demo_lose_session with done := true }, demo_lose_session.state,
           -1, true) :=
  step_lose_illegal demo_lose_session 0 rfl rfl (by decide) rfl

/-- **C1 (code evaluated at the failing input).** Under `"raise"` mode, a `step`
    on an occupied cell of a non-terminal session executes the bare `raise`
    statement: the fault signalled is the re-raise with no active exception
    (Python `RuntimeError`), not a distinct `IllegalMove` condition.  No state
    is mutated (the fault propagates before any write). -/
theorem step_raise_illegal_bare_reraise (s : Session) (a : Nat)
    (hturn : s.to_play = s.player_color) (hdone : s.done = false)
    (hval : valid_move s.state a = false)
    (hmode : s.illegal_move_mode = "raise") :
    step_env s a = .error .bareRaise := by
  simp [step_env, hturn, hdone, hval, hmode]

/-- Witness for `step_raise_illegal_bare_reraise` at a concrete session. -/
theorem step_raise_illegal_bare_reraise_witness :
    step_env demo_raise_session 0 = .error .bareRaise :=
  step_raise_illegal_bare_reraise demo_raise_session 0 rfl rfl (by decide) rfl

/-- **C10.** Constructing a session with agent side Cross always fails: the
    constructor calls `reset()` before `_seed()` has bound `opponent_policy`,
    and `reset()` for a Cross agent immediately consults the opponent policy,
    so construction stops with an attribute-lookup error for every opponent
    argument and either legal illegal-move mode. -/
theorem init_cross_always_fails (opp : OpponentSpec) (mode : String)
    (hmode : mode = "lose" ∨ mode = "raise") :
    init_env "cross" opp "numpy3c" mode = .error .attributeError := by
  rcases hmode with h | h <;> subst h <;> rfl

/-- Witness for `init_cross_always_fails` with the random opponent. -/
theorem init_cross_always_fails_witness :
    init_env "cross" (.str "random") "numpy3c" "lose" = .error .attributeError :=
  init_cross_always_fails (.str "random") "lose" (Or.inl rfl)

/-- **C9.** Two sessions constructed with the `"random"` opponent and seeded
    with the same seed produce identical `(observation, reward, done)` traces
    on identical agent-action sequences: the whole evolution is a deterministic
    function of the seed and the actions. -/
theorem same_seed_same_trace (v1 v2 : Nat) (acts1 acts2 : List Nat)
    (hv : v1 = v2) (hacts : acts1 = acts2) :
    session_trace (make_session v1) acts1 = session_trace (make_session v2) acts2 := by
  subst hv; subst hacts; rfl

/-- Witness for `same_seed_same_trace` at seed 42 and actions `[0, 4]`. -/
theorem same_seed_same_trace_witness :
    session_trace (make_session 42) [0, 4] = session_trace (make_session 42) [0, 4] :=
  same_seed_same_trace 42 42 [0, 4] [0, 4] rfl rfl

/-- **C2 (counterexample).** A full-board draw reached through the engine:
    agent Circle plays 0, 1, 5, 6, 8 against the deterministic opponent
    `oppSeq` (who answers 2, 3, 4, 7).  After the fifth step no legal action
    remains and `game_finished` reports 0, yet the session is NOT marked
    terminal: `done` is `false`, contradicting the claim that the step after
    which no legal actions remain sets `done = true`. -/
theorem full_draw_not_marked_terminal_cex :
    ((init_env "circle" (.policy oppSeq) "numpy3c" "lose").bind
        fun s => run_steps s [0, 1, 5, 6, 8]).map
      (fun s2 => ((get_possible_actions s2.state).length, s2.done,
                  (game_finished s2.state).toOption)) =
      .ok (0, false, some 0) := by
  rfl

/-- **C2 (amended).** When a legal `step` of a non-terminal session ends with
    `game_finished` evaluating the resulting board to the Ongoing score 0 — in
    particular on a full-board draw, where no legal action remains — the call
    returns reward 0 but does NOT mark the session terminal: `done` stays
    `false` (the engine sets `done` only when the score is nonzero). -/
theorem step_draw_reward_zero_not_done (s : Session) (a : Nat)
    (out : Session × Board × Int × Bool)
    (h : step_env s a = .ok out) (hdone : s.done = false)
    (hval : valid_move s.state a = true)
    (hdraw : game_finished out.1.state = .ok 0) :
    out.2.2.1 = 0 ∧ out.2.2.2 = false := by
  unfold step_env at h
  by_cases hturn : s.to_play ≠ s.player_color
  · rw [if_pos hturn] at h; simp at h
  rw [if_neg hturn] at h
  simp only [hdone, Bool.false_eq_true, if_false, hval, Bool.true_eq_false] at h
  cases hop : s.opponent_policy with
  | none => rw [hop] at h; simp at h
  | some p =>
    simp only [hop] at h
    cases hph : opponent_phase p s.np_random s.player_color
        (make_move s.state a s.player_color) with
    | error e => simp only [hph] at h; simp at h
    | ok bg =>
      obtain ⟨board2, g2⟩ := bg
      simp only [hph] at h
      cases hgf : game_finished board2 with
      | error e => simp only [hgf] at h; simp at h
      | ok raw =>
        simp only [hgf] at h
        injection h with h2
        subst h2
        have hgf0 : game_finished board2 = .ok 0 := hdraw
        rw [hgf] at hgf0
        injection hgf0 with hraw
        subst hraw
        simp

/-- Witness for `step_draw_reward_zero_not_done`: the final step of the
    concrete draw game returns reward 0 and `done = false`. -/
theorem step_draw_reward_zero_not_done_witness :
    ((step_env draw_pre_session 8).toOption.getD
        (dummy_session, init_board, 0, false)).2.2.1 = 0 ∧
    ((step_env draw_pre_session 8).toOption.getD
        (dummy_session, init_board, 0, false)).2.2.2 = false :=
  step_draw_reward_zero_not_done draw_pre_session 8 _ rfl rfl rfl rfl

/-- A legal action on the freshly reset board targets one of the 9 cells. -/
theorem valid_init_lt9 (a : Nat) (h : valid_move init_board a = true) :
    a < 9 := by
  rw [valid_move_iff] at h
  by_contra h9
  have h0 : init_board 2 (a / 3) (a % 3) = 0 := by
    unfold init_board
    have hc : ¬(2 = 2 ∧ a / 3 < 3 ∧ a % 3 < 3) := by omega
    rw [if_neg hc]
  rw [h0] at h
  exact absurd h (by norm_num)

/-- **C6.** After `reset()` it is the agent's turn: a Circle agent gets the
    entirely empty board with the turn at Circle, and a Cross agent gets a
    board carrying exactly one mark — the opponent's opening Circle move —
    with the turn at Cross. -/
theorem reset_positions_agent (s : Session) :
    (s.player_color = CIRCLE →
      reset_env s =
        .ok { s with state := init_board, to_play := CIRCLE, done := false }) ∧
    (∀ p a g2, s.player_color = CROSS → s.opponent_policy = some p →
      call_policy p s.np_random init_board = (some a, g2) →
      valid_move init_board a = true →
      reset_env s =
        .ok { s with state := make_move init_board a CIRCLE,
                     to_play := CROSS, done := false, np_random := g2 } ∧
      markedCount (make_move init_board a CIRCLE) = 1) := by
  constructor
  · intro h
    simp [reset_env, h, CIRCLE]
  · intro p a g2 hpc hpol hcall hval
    constructor
    · simp [reset_env, hpc, hpol, hcall, CIRCLE, CROSS]
    · have h9 := valid_init_lt9 a hval
      interval_cases a <;> decide

/-- Witness for `reset_positions_agent`: the Cross-agent case with the
    opponent opening at the centre cell 4. -/
theorem reset_positions_agent_witness :
    reset_env demo_cross_session =
      .ok { demo_cross_session with state := make_move init_board 4 CIRCLE,
                                    to_play := CROSS, done := false,
                                    np_random := ⟨0, 0⟩ } ∧
    markedCount (make_move init_board 4 CIRCLE) = 1 :=
  (reset_positions_agent demo_cross_session).2 (.externalP fun _ => some 4) 4
    ⟨0, 0⟩ rfl rfl rfl (by decide)


/-! ### Win-detection lemmas (C7, C8) -/

theorem values01_cell (b : Board) (h : values01 b) (l r c : Nat)
    (hl : l < 2) (hr : r < 3) (hc : c < 3) : b l r c = 0 ∨ b l r c = 1 :=
  h ⟨l, hl⟩ ⟨r, hr⟩ ⟨c, hc⟩

theorem prod3_01 (u v w : Int) (hu : u = 0 ∨ u = 1) (hv : v = 0 ∨ v = 1)
    (hw : w = 0 ∨ w = 1) : u * (v * w) = 0 ∨ u * (v * w) = 1 := by
  rcases hu with h | h <;> rcases hv with h2 | h2 <;> rcases hw with h3 | h3 <;>
    subst h <;> subst h2 <;> subst h3 <;> decide

theorem prod3_eq_one_iff (u v w : Int) (hu : u = 0 ∨ u = 1) (hv : v = 0 ∨ v = 1)
    (hw : w = 0 ∨ w = 1) : u * (v * w) = 1 ↔ u = 1 ∧ v = 1 ∧ w = 1 := by
  rcases hu with h | h <;> rcases hv with h2 | h2 <;> rcases hw with h3 | h3 <;>
    subst h <;> subst h2 <;> subst h3 <;> decide

theorem line_prod_01 (b : Board) (layer : Nat) (hl : layer < 2) (h : values01 b)
    (line : List (Nat × Nat)) (hline : line ∈ win_lines) :
    line_prod b layer line = 0 ∨ line_prod b layer line = 1 := by
  fin_cases hline <;>
  · simp only [line_prod, List.map_cons, List.map_nil, List.prod_cons,
      List.prod_nil, mul_one]
    refine prod3_01 _ _ _ ?_ ?_ ?_ <;>
      exact values01_cell b h layer _ _ hl (by omega) (by omega)

theorem line_prod_eq_one_iff (b : Board) (layer : Nat) (hl : layer < 2)
    (h : values01 b) (line : List (Nat × Nat)) (hline : line ∈ win_lines) :
    line_prod b layer line = 1 ↔ line_won b layer line := by
  fin_cases hline <;>
  · simp [line_prod, line_won]
    refine prod3_eq_one_iff _ _ _ ?_ ?_ ?_ <;>
      exact values01_cell b h layer _ _ hl (by omega) (by omega)

theorem sum01_nonneg (l : List Int) (h : ∀ x ∈ l, x = 0 ∨ x = 1) : 0 ≤ l.sum := by
  induction l with
  | nil => simp
  | cons a t ih =>
    have ha := h a (List.mem_cons_self a t)
    have ht := ih fun x hx => h x (List.mem_cons_of_mem a hx)
    simp only [List.sum_cons]
    rcases ha with h1 | h1 <;> subst h1 <;> omega

theorem sum01_eq_zero_iff (l : List Int) (h : ∀ x ∈ l, x = 0 ∨ x = 1) :
    l.sum = 0 ↔ ∀ x ∈ l, x = 0 := by
  induction l with
  | nil => simp
  | cons a t ih =>
    have ha := h a (List.mem_cons_self a t)
    have ht := sum01_nonneg t fun x hx => h x (List.mem_cons_of_mem a hx)
    have iht := ih fun x hx => h x (List.mem_cons_of_mem a hx)
    simp only [List.sum_cons, List.forall_mem_cons]
    rw [← iht]
    rcases ha with h1 | h1 <;> subst h1 <;> omega

theorem win_sum_eq_zero_iff (b : Board) (layer : Nat) (hl : layer < 2)
    (h : values01 b) :
    ((win_lines.map fun line => line_prod b layer line).sum = 0) ↔
      ¬ has_win b layer := by
  rw [sum01_eq_zero_iff]
  · constructor
    · rintro hall ⟨line, hline, hwon⟩
      have hx := hall (line_prod b layer line) (List.mem_map_of_mem _ hline)
      rw [(line_prod_eq_one_iff b layer hl h line hline).mpr hwon] at hx
      exact absurd hx (by norm_num)
    · intro hnot x hx
      obtain ⟨line, hline, rfl⟩ := List.mem_map.mp hx
      rcases line_prod_01 b layer hl h line hline with h0 | h1
      · exact h0
      · exact absurd
          ⟨line, hline, (line_prod_eq_one_iff b layer hl h line hline).mp h1⟩ hnot
  · intro x hx
    obtain ⟨line, hline, rfl⟩ := List.mem_map.mp hx
    exact line_prod_01 b layer hl h line hline

/-- **C7.** `game_finished` scans exactly the 8 winning lines, a line counting
    as won iff all three of its cells carry the player's marker: on any 0/1
    board the raw score is +1 exactly when Circle has a completed line and
    Cross has none, and −1 exactly when Cross has a completed line and Circle
    has none. -/
theorem game_finished_characterizes_lines (b : Board) (h : values01 b) :
    (game_finished b = .ok 1 ↔ has_win b 0 ∧ ¬ has_win b 1) ∧
    (game_finished b = .ok (-1) ↔ has_win b 1 ∧ ¬ has_win b 0) := by
  have hx0 : xwin b = 0 ↔ ¬ has_win b 1 := win_sum_eq_zero_iff b 1 (by omega) h
  have ho0 : owin b = 0 ↔ ¬ has_win b 0 := win_sum_eq_zero_iff b 0 (by omega) h
  have hxn : 0 ≤ xwin b := sum01_nonneg _ fun x hx => by
    obtain ⟨line, hline, rfl⟩ := List.mem_map.mp hx
    exact line_prod_01 b 1 (by omega) h line hline
  have hon : 0 ≤ owin b := sum01_nonneg _ fun x hx => by
    obtain ⟨line, hline, rfl⟩ := List.mem_map.mp hx
    exact line_prod_01 b 0 (by omega) h line hline
  unfold game_finished
  split_ifs with h1 h2 h3
  · constructor
    · constructor
      · intro hc; exact absurd hc (by simp)
      · rintro ⟨hw0, _⟩; exact absurd hw0 (ho0.mp h1.2)
    · constructor
      · intro hc; exact absurd hc (by simp)
      · rintro ⟨hw1, _⟩; exact absurd hw1 (hx0.mp h1.1)
  · constructor
    · constructor
      · intro hc; exact absurd hc (by simp)
      · rintro ⟨hw0, _⟩; exact absurd hw0 (ho0.mp h2.2)
    · constructor
      · intro _
        refine ⟨?_, ho0.mp h2.2⟩
        by_contra hnw1
        have hz := hx0.mpr hnw1
        omega
      · intro _; rfl
  · constructor
    · constructor
      · intro _
        refine ⟨?_, hx0.mp h3.1⟩
        by_contra hnw0
        have hz := ho0.mpr hnw0
        omega
      · intro _; rfl
    · constructor
      · intro hc; exact absurd hc (by simp)
      · rintro ⟨hw1, _⟩; exact absurd hw1 (hx0.mp h3.1)
  · have hxpos : 0 < xwin b := by omega
    have hopos : 0 < owin b := by omega
    have hw1 : has_win b 1 := by
      by_contra hn; have hz := hx0.mpr hn; omega
    have hw0 : has_win b 0 := by
      by_contra hn; have hz := ho0.mpr hn; omega
    constructor
    · constructor
      · intro hc; exact absurd hc (by simp)
      · rintro ⟨_, hnw1⟩; exact absurd hw1 hnw1
    · constructor
      · intro hc; exact absurd hc (by simp)
      · rintro ⟨_, hnw0⟩; exact absurd hw0 hnw0

/-- Witness for `game_finished_characterizes_lines`: Circle's completed top
    row scores +1; Cross's completed middle row scores −1. -/
theorem game_finished_characterizes_lines_witness :
    game_finished circle_row_board = .ok 1 ∧
    game_finished cross_row_board = .ok (-1) :=
  ⟨(game_finished_characterizes_lines circle_row_board (by decide)).1.mpr
      ⟨⟨[(0, 0), (0, 1), (0, 2)], by decide, by decide⟩, by decide⟩,
   (game_finished_characterizes_lines cross_row_board (by decide)).2.mpr
      ⟨⟨[(1, 0), (1, 1), (1, 2)], by decide, by decide⟩, by decide⟩⟩

/-- **C8.** On any 0/1 board where both players have a completed winning line,
    `game_finished` signals the invariant-violation fault instead of returning
    any of the three normal scores. -/
theorem game_finished_both_win_fault (b : Board) (h : values01 b)
    (h0 : has_win b 0) (h1 : has_win b 1) :
    game_finished b = .error .bothWinError := by
  have hx0 : xwin b = 0 ↔ ¬ has_win b 1 := win_sum_eq_zero_iff b 1 (by omega) h
  have ho0 : owin b = 0 ↔ ¬ has_win b 0 := win_sum_eq_zero_iff b 0 (by omega) h
  have hx : ¬ xwin b = 0 := fun he => (hx0.mp he) h1
  have ho : ¬ owin b = 0 := fun he => (ho0.mp he) h0
  unfold game_finished
  rw [if_neg fun hc => hx hc.1, if_neg fun hc => ho hc.2,
      if_neg fun hc => hx hc.1]

/-- Witness for `game_finished_both_win_fault` at a concrete corrupted board. -/
theorem game_finished_both_win_fault_witness :
    game_finished both_win_board = .error .bothWinError :=
  game_finished_both_win_fault both_win_board (by decide)
    ⟨[(0, 0), (0, 1), (0, 2)], by decide, by decide⟩
    ⟨[(1, 0), (1, 1), (1, 2)], by decide, by decide⟩

/-! ### Reachability invariant (C5) -/

theorem mem_possible_valid (b : Board) (a : Nat)
    (h : a ∈ get_possible_actions b) : valid_move b a = true := by
  unfold get_possible_actions at h
  simp only [List.mem_flatMap, List.mem_filterMap, List.mem_range] at h
  obtain ⟨x, hx, y, hy, hif⟩ := h
  by_cases hb : b 2 x y = 1
  · rw [if_pos hb] at hif
    injection hif with he
    subst he
    rw [valid_move_iff]
    unfold coordinate_to_action
    have e1 : (x * 3 + y) / 3 = x := by omega
    have e2 : (x * 3 + y) % 3 = y := by omega
    simp only []
    rw [e1, e2]
    exact hb
  · rw [if_neg hb] at hif
    exact absurd hif (by simp)

theorem random_policy_valid (g g2 : NPRandom) (b : Board) (a : Nat)
    (h : random_policy g b = (some a, g2)) : valid_move b a = true := by
  unfold random_policy at h
  simp only [] at h
  by_cases h0 : (get_possible_actions b).length = 0
  · rw [if_pos h0] at h
    injection h with h1 _
    exact absurd h1 (by simp)
  · rw [if_neg h0] at h
    injection h with h1 _
    have hm : a ∈ get_possible_actions b := by
      have := List.getElem?_mem h1
      exact this
    exact mem_possible_valid b a hm

theorem call_policy_valid (p : BoundPolicy) (g g2 : NPRandom) (b : Board)
    (a : Nat) (hp : PolicyLegal p) (h : call_policy p g b = (some a, g2)) :
    valid_move b a = true := by
  cases p with
  | randomP => exact random_policy_valid g g2 b a h
  | externalP f =>
    have h2 : (f b, g) = (some a, g2) := h
    injection h2 with h3 _
    exact hp b a h3

theorem make_move_zero_outside (b : Board) (a p : Nat) (hp : p < 2) (ha : a < 9)
    (hz : zero_outside b) : zero_outside (make_move b a p) := by
  intro l r c hout
  unfold make_move
  by_cases hrc : r = a / 3 ∧ c = a % 3
  · obtain ⟨hr, hc⟩ := hrc
    subst hr
    subst hc
    rw [if_pos ⟨rfl, rfl⟩]
    rw [if_neg (by omega), if_neg (by omega)]
    exact hz l (a / 3) (a % 3) hout
  · rw [if_neg hrc]
    exact hz l r c hout

theorem make_move_onehot (b : Board) (a p : Nat) (hp : p = 0 ∨ p = 1)
    (hv : valid_move b a = true) (hb : BoardInv b) :
    onehot (make_move b a p) := by
  obtain ⟨h1, h2⟩ := hb
  have hcell : b 2 (a / 3) (a % 3) = 1 := (valid_move_iff b a).mp hv
  have ha : a < 9 := by
    by_contra h9
    have h0 := h2 2 (a / 3) (a % 3) (by omega)
    omega
  intro r c
  by_cases hrc : (r : Nat) = a / 3 ∧ (c : Nat) = a % 3
  · obtain ⟨hr, hc⟩ := hrc
    have honehot := h1 r c
    have hb2 : b 2 r c = 1 := by rw [hr, hc]; exact hcell
    have hb0 : b 0 r c = 0 := by
      rcases honehot with ⟨x, y, z⟩ | ⟨x, y, z⟩ | ⟨x, y, z⟩ <;> omega
    have hb1 : b 1 r c = 0 := by
      rcases honehot with ⟨x, y, z⟩ | ⟨x, y, z⟩ | ⟨x, y, z⟩ <;> omega
    unfold make_move
    rcases hp with hp | hp <;> subst hp
    · left
      refine ⟨?_, ?_, ?_⟩ <;> rw [if_pos ⟨hr, hc⟩]
      · rw [if_pos rfl]
      · rw [if_neg (by omega), if_neg (by omega)]
        exact hb1
      · rw [if_neg (by omega), if_pos rfl]
    · right; left
      refine ⟨?_, ?_, ?_⟩ <;> rw [if_pos ⟨hr, hc⟩]
      · rw [if_neg (by omega), if_neg (by omega)]
        exact hb0
      · rw [if_pos rfl]
      · rw [if_neg (by omega), if_pos rfl]
  · unfold make_move
    simp only [if_neg hrc]
    exact h1 r c

theorem make_move_inv (b : Board) (a p : Nat) (hp : p = 0 ∨ p = 1)
    (hv : valid_move b a = true) (hb : BoardInv b) :
    BoardInv (make_move b a p) := by
  have hcell : b 2 (a / 3) (a % 3) = 1 := (valid_move_iff b a).mp hv
  have ha : a < 9 := by
    by_contra h9
    have h0 := hb.2 2 (a / 3) (a % 3) (by omega)
    omega
  exact ⟨make_move_onehot b a p hp hv hb,
    make_move_zero_outside b a p (by omega) ha hb.2⟩

theorem init_board_inv : BoardInv init_board := by
  constructor
  · decide
  · intro l r c hout
    unfold init_board
    rw [if_neg (by omega)]

theorem reset_ok (s s2 : Session) (hpol : PolicyLegalOpt s.opponent_policy)
    (h : reset_env s = .ok s2) : SessionOK s2 := by
  unfold reset_env at h
  simp only [] at h
  by_cases hpc : s.player_color ≠ CIRCLE
  · rw [if_pos hpc] at h
    cases hop : s.opponent_policy with
    | none => rw [hop] at h; simp at h
    | some p =>
      simp only [hop] at h
      cases hcp : call_policy p s.np_random init_board with
      | mk oa g2 =>
        cases oa with
        | none => simp only [hcp] at h; simp at h
        | some a =>
          simp only [hcp] at h
          injection h with h2
          subst h2
          have hv : valid_move init_board a = true :=
            call_policy_valid p s.np_random g2 init_board a (hpol p hop) hcp
          refine ⟨make_move_inv init_board a CIRCLE (Or.inl rfl) hv init_board_inv,
            Or.inr rfl, fun q hq => ?_⟩
          have hq2 : some p = some q := hq
          injection hq2 with hq3
          rw [← hq3]
          exact hpol p hop
  · rw [if_neg hpc] at h
    injection h with h2
    subst h2
    exact ⟨init_board_inv, Or.inl rfl, fun q hq => hpol q hq⟩

theorem opponent_phase_inv (p : BoundPolicy) (g : NPRandom) (pc : Nat)
    (b1 : Board) (hp : PolicyLegal p) (_hpc : pc = 0 ∨ pc = 1)
    (hb : BoardInv b1) (b2 : Board) (g2 : NPRandom)
    (h : opponent_phase p g pc b1 = .ok (b2, g2)) : BoardInv b2 := by
  unfold opponent_phase at h
  cases hcp : call_policy p g b1 with
  | mk oa g3 =>
    cases oa with
    | none =>
      simp only [hcp] at h
      injection h with h2
      injection h2 with h3 _
      subst h3
      exact hb
    | some a2 =>
      simp only [hcp] at h
      cases hgf : game_finished b1 with
      | error e => simp only [hgf] at h; exact absurd h (by simp)
      | ok g1 =>
        simp only [hgf] at h
        injection h with h2
        injection h2 with h3 _
        subst h3
        by_cases hz : g1 = 0
        · rw [if_pos hz]
          exact make_move_inv b1 a2 (1 - pc) (by omega)
            (call_policy_valid p g g3 b1 a2 hp hcp) hb
        · rw [if_neg hz]
          exact hb

theorem step_ok (s : Session) (a : Nat) (out : Session × Board × Int × Bool)
    (hok : SessionOK s) (h : step_env s a = .ok out) : SessionOK out.1 := by
  obtain ⟨hinv, htp, hpol⟩ := hok
  unfold step_env at h
  by_cases h1 : s.to_play ≠ s.player_color
  · rw [if_pos h1] at h; simp at h
  rw [if_neg h1] at h
  have hpc : s.player_color = 0 ∨ s.player_color = 1 := by
    rcases htp with ht | ht
    · exact Or.inl (by omega)
    · exact Or.inr (by omega)
  by_cases h2 : s.done = true
  · rw [if_pos h2] at h
    injection h with h3
    have h4 : out.1 = s := by rw [← h3]
    rw [h4]
    exact ⟨hinv, htp, hpol⟩
  rw [if_neg h2] at h
  by_cases h3 : valid_move s.state a = false
  · rw [if_pos h3] at h
    by_cases hm1 : s.illegal_move_mode = "raise"
    · rw [if_pos hm1] at h; simp at h
    rw [if_neg hm1] at h
    by_cases hm2 : s.illegal_move_mode = "lose"
    · rw [if_pos hm2] at h
      injection h with h4
      have h5 : out.1 = { s with done := true } := by rw [← h4]
      rw [h5]
      exact ⟨hinv, htp, hpol⟩
    · rw [if_neg hm2] at h; simp at h
  · rw [if_neg h3] at h
    have hval : valid_move s.state a = true := by
      cases hb : valid_move s.state a
      · exact absurd hb h3
      · rfl
    cases hop : s.opponent_policy with
    | none => simp only [hop] at h; simp at h
    | some p =>
      simp only [hop] at h
      cases hph : opponent_phase p s.np_random s.player_color
          (make_move s.state a s.player_color) with
      | error e => simp only [hph] at h; simp at h
      | ok bg =>
        obtain ⟨board2, g2⟩ := bg
        simp only [hph] at h
        cases hgf : game_finished board2 with
        | error e => simp only [hgf] at h; simp at h
        | ok raw =>
          simp only [hgf] at h
          injection h with h4
          have hinv1 : BoardInv (make_move s.state a s.player_color) :=
            make_move_inv s.state a s.player_color hpc hval hinv
          have hinv2 : BoardInv board2 :=
            opponent_phase_inv p s.np_random s.player_color _ (hpol p hop)
              hpc hinv1 board2 g2 hph
          have hstate : out.1.state = board2 := by rw [← h4]
          have htp2 : out.1.to_play = s.to_play := by rw [← h4]
          have hpol2 : out.1.opponent_policy = some p := by rw [← h4]
          refine ⟨?_, ?_, fun q hq => ?_⟩
          · rw [hstate]; exact hinv2
          · rw [htp2]; exact htp
          · rw [hpol2] at hq
            injection hq with hq3
            rw [← hq3]
            exact hpol p hop

theorem reachable_ok (s : Session) (h : Reachable s) : SessionOK s := by
  induction h with
  | base s0 s2 hpol hr => exact reset_ok s0 s2 hpol hr
  | next s0 a out hs hstep ih => exact step_ok s0 a out ih hstep

theorem length_filterMap_if (p : Nat → Prop) [DecidablePred p] (f : Nat → Nat)
    (l : List Nat) :
    (l.filterMap fun y => if p y then some (f y) else none).length
      = l.countP fun y => decide (p y) := by
  induction l with
  | nil => rfl
  | cons hd t ih =>
    by_cases hp : p hd
    · simp [List.filterMap_cons, hp, ih, List.countP_cons]
    · simp [List.filterMap_cons, hp, ih, List.countP_cons]

theorem possible_add_marked (b : Board) (h : onehot b) :
    (get_possible_actions b).length + markedCount b = 9 := by
  have hsplit : get_possible_actions b =
      ((List.range 3).filterMap fun y =>
        if b 2 0 y = 1 then some (coordinate_to_action b (0, y)) else none) ++
      (((List.range 3).filterMap fun y =>
        if b 2 1 y = 1 then some (coordinate_to_action b (1, y)) else none) ++
      (((List.range 3).filterMap fun y =>
        if b 2 2 y = 1 then some (coordinate_to_action b (2, y)) else none) ++
        [])) := rfl
  have hr : List.range 3 = [0, 1, 2] := rfl
  rw [hsplit, hr]
  simp only [List.length_append, List.length_nil, add_zero]
  rw [length_filterMap_if, length_filterMap_if, length_filterMap_if]
  unfold markedCount all_cells
  simp only [List.countP_cons, List.countP_nil, decide_eq_true_eq]
  have e : ∀ r c : Nat, r < 3 → c < 3 →
      ((if b 2 r c = 1 then (1 : Nat) else 0) +
        (if b 0 r c = 1 ∨ b 1 r c = 1 then (1 : Nat) else 0)) = 1 := by
    intro r c hr3 hc3
    have hh : (b 0 r c = 1 ∧ b 1 r c = 0 ∧ b 2 r c = 0) ∨
        (b 0 r c = 0 ∧ b 1 r c = 1 ∧ b 2 r c = 0) ∨
        (b 0 r c = 0 ∧ b 1 r c = 0 ∧ b 2 r c = 1) := h ⟨r, hr3⟩ ⟨c, hc3⟩
    rcases hh with ⟨x, y, z⟩ | ⟨x, y, z⟩ | ⟨x, y, z⟩ <;> rw [x, y, z] <;> norm_num
  have e00 := e 0 0 (by omega) (by omega)
  have e01 := e 0 1 (by omega) (by omega)
  have e02 := e 0 2 (by omega) (by omega)
  have e10 := e 1 0 (by omega) (by omega)
  have e11 := e 1 1 (by omega) (by omega)
  have e12 := e 1 2 (by omega) (by omega)
  have e20 := e 2 0 (by omega) (by omega)
  have e21 := e 2 1 (by omega) (by omega)
  have e22 := e 2 2 (by omega) (by omega)
  omega

/-- **C5.** Every board reachable through `reset` followed by any sequence of
    `step` calls (with the opponent policy honouring the §4.3 contract of
    returning only legal moves) satisfies the one-hot invariant, and the number
    of possible actions plus the number of marked cells is 9. -/
theorem reachable_onehot_count (s : Session) (h : Reachable s) :
    onehot s.state ∧
    (get_possible_actions s.state).length + markedCount s.state = 9 := by
  have hok := reachable_ok s h
  exact ⟨hok.1.1, possible_add_marked s.state hok.1.1⟩

/-- Witness for `reachable_onehot_count`: the freshly reset Circle session. -/
theorem reachable_onehot_count_witness :
    onehot demo_start_session.state ∧
    (get_possible_actions demo_start_session.state).length +
      markedCount demo_start_session.state = 9 :=
  reachable_onehot_count demo_start_session
    (Reachable.base demo_start_session demo_start_session
      (fun p hp => by
        have hp2 : some BoundPolicy.randomP = some p := hp
        injection hp2 with hp3
        rw [← hp3]
        exact True.intro)
      rfl)
